import Mathlib

/-!
Verification development for the rapt2 relational-algebra compiler.

The Python sources embedded here are:
  * `src/rapt2/treebrd/node.py` — AST node constructors and their
    well-formedness checks (join ambiguity, set-operation schema
    compatibility, assignment checks);
  * `src/rapt2/transformers/sql/sql_translator.py` — the SQL translator
    (bag semantics) and its set-semantics subclass;
  * `src/rapt2/transformers/qtree/qtree_translator.py` — the LaTeX qtree
    translator;
  * `src/rapt2/treebrd/grammars/dependency_grammar.py` (with the token
    table from `grammars/syntax.py` and the condition sub-grammar from
    `grammars/condition_grammar.py` / `grammars/proto_grammar.py`) — the
    dependency-statement parser.

The repository snapshot does not contain `treebrd/attributes.py`,
`treebrd/schema.py` or `treebrd/errors.py` (only their callers and tests);
the `Attribute`, attribute-list operation and `Schema` definitions below
are modelled from the specification (§3, §4.2) and are marked as such.
-/

/-- Error kinds of the compiler, mirroring `treebrd/errors.py` (the module
is absent from the snapshot; the kinds are modelled from the spec, §7). -/
inductive RErrorKind where
  | syntaxError
  | relationReferenceError
  | attributeReferenceError
  | inputError
  | translationError
deriving DecidableEq, Repr

/-- Modelled from the spec: an entry of an Attribute List is a pair of an
optional owning-relation name and an attribute name (`attributes.py` is
missing from the snapshot). -/
structure Attr where
  relation : Option String
  name : String
deriving DecidableEq, Repr

/-- Modelled from the spec: a possibly relation-qualified attribute
reference (`relation_name "." attribute_name | attribute_name`).  The
Python code passes references around as dotted strings; they are modelled
structurally, with the qualifier made explicit. -/
structure AttrRef where
  relation : Option String
  name : String
deriving DecidableEq, Repr

/-- Modelled from the spec: `Attribute.prefixed` — the fully qualified
reference to an attribute, carrying its owning relation when present. -/
def Attr.toRef (a : Attr) : AttrRef := ⟨a.relation, a.name⟩

/-- Modelled from the spec: the display form of an attribute, used by the
attribute-list stringification (`str(node.attributes)` in the SQL
translator).  Qualified attributes display as `relation.name`; the
repository's database tests (theta joins over relations with identical
attribute names) require the qualified form. -/
def Attr.display (a : Attr) : String :=
  match a.relation with
  | some r => r ++ "." ++ a.name
  | none => a.name

/-- Modelled from the spec (§4.2 `validate`): a reference resolves to an
attribute when it is unqualified and the names agree, or qualified and
both the relation tag and the name agree. -/
def refMatches (r : AttrRef) (a : Attr) : Bool :=
  match r.relation with
  | none => a.name == r.name
  | some q => (a.relation == some q) && (a.name == r.name)

/-- Attribute list whose entries are all owned by relation `r`
(`AttributeList(names, name)` with a non-null name). -/
def relAttrs (r : String) (ns : List String) : List Attr :=
  ns.map (fun n => ⟨some r, n⟩)

/-- Attribute list with no owning relation
(`AttributeList(names, None)`). -/
def bareAttrs (ns : List String) : List Attr :=
  ns.map (fun n => ⟨none, n⟩)

/-- The `names` property of an attribute list: its unqualified names. -/
def attrNames (l : List Attr) : List String := l.map (·.name)

/-- Modelled from the spec: attribute-list stringification, a comma join
of the entries' display forms. -/
def attrsStr (l : List Attr) : String :=
  String.intercalate ", " (l.map (·.display))

/-- Modelled from the spec (§4.2 `trim`): filter an attribute list to a
caller-specified subset of references, in the order the references are
given, failing when a reference does not resolve to exactly one entry. -/
def trimAttrs (l : List Attr) : List AttrRef → Except RErrorKind (List Attr)
  | [] => .ok []
  | r :: rs =>
    match l.filter (refMatches r) with
    | [a] =>
      match trimAttrs l rs with
      | .ok t => .ok (a :: t)
      | .error e => .error e
    | _ => .error .attributeReferenceError

/-- Modelled from the spec (§4.2 `rename`): with no new names, only the
owning-relation tag is replaced on every entry; with a full list of new
names, the names are replaced positionally, failing when the count does
not match. -/
def renameAttrs (newNames : List String) (newRel : Option String)
    (l : List Attr) : Except RErrorKind (List Attr) :=
  if newNames.isEmpty then
    .ok (l.map (fun a => ⟨newRel, a.name⟩))
  else if newNames.length ≠ l.length then
    .error .inputError
  else
    .ok (newNames.map (fun n => ⟨newRel, n⟩))

/-- Modelled from the spec (§4.2 `validate`): every reference must resolve
to exactly one entry of the list, else an attribute-reference error. -/
def validateRefs (l : List Attr) (refs : List AttrRef) :
    Except RErrorKind Unit :=
  if refs.all (fun r => (l.filter (refMatches r)).length == 1) then
    .ok ()
  else
    .error .attributeReferenceError

/-- Modelled from the spec (§3): the Schema registry, a mapping from
case-normalised relation names to ordered attribute-name lists
(`schema.py` is missing from the snapshot; behaviour matches the
repository's `tests/treebrd/test_schema.py`). -/
abbrev Schema := List (String × List String)

/-- Case normalisation of relation names (`str.lower()` in Python,
modelled character-wise). -/
def strLower (s : String) : String := ⟨s.data.map Char.toLower⟩

/-- Schema lookup (`Schema.get_attributes`), lower-casing the name. -/
def schemaGet (sc : Schema) (name : String) : Option (List String) :=
  (sc.find? (fun p => p.1 == strLower name)).map (·.2)

/-- Schema membership (`Schema.contains`), lower-casing the name. -/
def schemaContains (sc : Schema) (name : String) : Bool :=
  sc.any (fun p => p.1 == strLower name)

/-- Schema insertion (`Schema.add`): a relation-reference error when the
name is already registered, else the new entry is appended. -/
def schemaAdd (sc : Schema) (name : String) (attrs : List String) :
    Except RErrorKind Schema :=
  if schemaContains sc name then .error .relationReferenceError
  else .ok (sc ++ [(strLower name, attrs)])

/-- Unary condition operators (`condition_node.py`). -/
inductive UCondOp where
  | notOp
  | definedOp
deriving DecidableEq, Repr

/-- Binary condition operators (`condition_node.py`). -/
inductive BCondOp where
  | andOp
  | orOp
  | eqOp
  | neOp
  | ltOp
  | leOp
  | gtOp
  | geOp
deriving DecidableEq, Repr

/-- Condition AST (`condition_node.py`): identity leaf, unary and binary
applications. -/
inductive CondNode where
  | ident (s : String)
  | unary (op : UCondOp) (child : CondNode)
  | binary (op : BCondOp) (left right : CondNode)
deriving DecidableEq, Repr

/-- SQL rendering of a condition, from `SQLTranslator.translate_condition`
and the per-shape methods of `sql_translator.py` (identical to
`ConditionNode.to_sql`). -/
def CondNode.toSQL : CondNode → String
  | .ident s => s
  | .unary .notOp c => "NOT " ++ c.toSQL
  | .unary .definedOp c => c.toSQL ++ " IS NOT NULL"
  | .binary .andOp l r => "(" ++ l.toSQL ++ " AND " ++ r.toSQL ++ ")"
  | .binary .orOp l r => "(" ++ l.toSQL ++ " OR " ++ r.toSQL ++ ")"
  | .binary .eqOp l r => "(" ++ l.toSQL ++ " = " ++ r.toSQL ++ ")"
  | .binary .neOp l r => "(" ++ l.toSQL ++ " != " ++ r.toSQL ++ ")"
  | .binary .ltOp l r => "(" ++ l.toSQL ++ " < " ++ r.toSQL ++ ")"
  | .binary .leOp l r => "(" ++ l.toSQL ++ " <= " ++ r.toSQL ++ ")"
  | .binary .gtOp l r => "(" ++ l.toSQL ++ " > " ++ r.toSQL ++ ")"
  | .binary .geOp l r => "(" ++ l.toSQL ++ " >= " ++ r.toSQL ++ ")"

/-- LaTeX rendering of a condition, from the condition methods of
`qtree_translator.py` (binary applications are fully parenthesised). -/
def CondNode.toLatex : CondNode → String
  | .ident s => s
  | .unary .notOp c => "\\neg " ++ c.toLatex
  | .unary .definedOp c => "\\text\x7bdefined\x7d(" ++ c.toLatex ++ ")"
  | .binary .andOp l r => "(" ++ l.toLatex ++ " \\land " ++ r.toLatex ++ ")"
  | .binary .orOp l r => "(" ++ l.toLatex ++ " \\lor " ++ r.toLatex ++ ")"
  | .binary .eqOp l r => "(" ++ l.toLatex ++ " \\eq " ++ r.toLatex ++ ")"
  | .binary .neOp l r => "(" ++ l.toLatex ++ " \\neq " ++ r.toLatex ++ ")"
  | .binary .ltOp l r => "(" ++ l.toLatex ++ " \\lt " ++ r.toLatex ++ ")"
  | .binary .leOp l r => "(" ++ l.toLatex ++ " \\leq " ++ r.toLatex ++ ")"
  | .binary .gtOp l r => "(" ++ l.toLatex ++ " \\gt " ++ r.toLatex ++ ")"
  | .binary .geOp l r => "(" ++ l.toLatex ++ " \\geq " ++ r.toLatex ++ ")"

/-- Splits a raw identity text into a structured reference at its first
dot.  Modelled from the attribute-reference sub-grammar of
`proto_grammar.py`: an identifier optionally prefixed by a relation name
and a dot; texts not starting with a letter (numeric and quoted string
literals) are not references. -/
def parseRefText (s : String) : Option AttrRef :=
  match s.data with
  | [] => none
  | c :: _ =>
    if c.isAlpha then
      match s.splitOn "." with
      | [n] => some ⟨none, n⟩
      | r :: n :: _ => some ⟨some r, n⟩
      | [] => none
    else none

/-- Attribute references of a condition (`attribute_references` in
`condition_node.py`): a pure fold collecting the identity leaves whose
text is a valid attribute reference. -/
def CondNode.attributeRefs : CondNode → List AttrRef
  | .ident s =>
    match parseRefText s with
    | some r => [r]
    | none => []
  | .unary _ c => c.attributeRefs
  | .binary _ l r => l.attributeRefs ++ r.attributeRefs

/-- Join operator kinds (`Operator` enum, join group, `node.py`). -/
inductive JoinOp where
  | cross
  | natural
  | theta
  | fullOuter
  | leftOuter
  | rightOuter
deriving DecidableEq, Repr

/-- Set operator kinds (`Operator` enum, set group, `node.py`). -/
inductive SetOp where
  | unionOp
  | differenceOp
  | intersectOp
deriving DecidableEq, Repr

/-- The AST of `node.py` as a closed tree type.  Every constructor carries
the fields the node object exposes after construction (`name`,
`attributes`, children, conditions); dependency nodes carry their raw
relation-name and attribute-string payloads, as in the Python classes. -/
inductive RTree where
  | relationN (name : String) (attrs : List Attr)
  | definitionN (name : String) (attrs : List Attr)
  | selectN (name : Option String) (attrs : List Attr) (cond : CondNode) (child : RTree)
  | projectN (name : Option String) (attrs : List Attr) (child : RTree)
  | renameN (name : Option String) (attrs : List Attr) (child : RTree)
  | assignN (name : Option String) (attrs : List Attr) (child : RTree)
  | joinN (op : JoinOp) (attrs : List Attr) (cond : Option CondNode) (left right : RTree)
  | setopN (op : SetOp) (attrs : List Attr) (left right : RTree)
  | pkN (rel : String) (attrs : List String)
  | mvdN (rel : String) (attrs : List String) (child : RTree)
  | fdN (rel : String) (attrs : List String) (child : RTree)
  | incEqN (rels : List String) (attrs : List String) (leftChild rightChild : RTree)
  | incSubN (rels : List String) (attrs : List String) (leftChild rightChild : RTree)
deriving DecidableEq, Repr

/-- The `name` field (`Node.name`): set for relations, definitions and the
unary family; always `None` for joins, set operators and dependency
nodes. -/
def RTree.nodeName : RTree → Option String
  | .relationN n _ => some n
  | .definitionN n _ => some n
  | .selectN n _ _ _ => n
  | .projectN n _ _ => n
  | .renameN n _ _ => n
  | .assignN n _ _ => n
  | _ => none

/-- The `attributes` field of expression nodes (dependency nodes keep
their raw string payloads instead and yield the empty list here). -/
def RTree.attrsOf : RTree → List Attr
  | .relationN _ a => a
  | .definitionN _ a => a
  | .selectN _ a _ _ => a
  | .projectN _ a _ => a
  | .renameN _ a _ => a
  | .assignN _ a _ => a
  | .joinN _ a _ _ _ => a
  | .setopN _ a _ _ => a
  | _ => []

/-- Construction of a `RelationNode`: the attribute list is pulled from
the schema, each entry qualified by the relation's name; absent relations
fail with a relation-reference error. -/
def relationNode (name : String) (sc : Schema) : Except RErrorKind RTree :=
  match schemaGet sc name with
  | some ns => .ok (.relationN name (relAttrs name ns))
  | none => .error .relationReferenceError

/-- Construction of a `DefinitionNode`: registers the new relation in the
schema (side effect) and carries its qualified attribute list. -/
def definitionNode (name : String) (ns : List String) (sc : Schema) :
    Except RErrorKind RTree × Schema :=
  match schemaAdd sc name (attrNames (relAttrs name ns)) with
  | .ok sc' => (.ok (.definitionN name (relAttrs name ns)), sc')
  | .error e => (.error e, sc)

/-- Construction of a `SelectNode`: validates the condition's attribute
references against the child's attribute list. -/
def selectNode (child : RTree) (cond : CondNode) : Except RErrorKind RTree :=
  match validateRefs child.attrsOf cond.attributeRefs with
  | .ok _ => .ok (.selectN child.nodeName child.attrsOf cond child)
  | .error e => .error e

/-- Construction of a `ProjectNode`: trims the child's attribute list to
the requested references. -/
def projectNode (child : RTree) (refs : List AttrRef) :
    Except RErrorKind RTree :=
  match trimAttrs child.attrsOf refs with
  | .ok t => .ok (.projectN child.nodeName t child)
  | .error e => .error e

/-- The ambiguity guard of `JoinNode.__init__`: true when both children
carry a non-empty name and the names coincide. -/
def joinNameClash (l r : Option String) : Bool :=
  match l, r with
  | some a, some b => (a != "") && (b != "") && (a == b)
  | _, _ => false

/-- The shared part of `JoinNode.__init__`: the ambiguity check followed
by the merge of the children's attribute lists (merge is concatenation,
modelled from the spec, §4.2). -/
def joinPre (l r : RTree) : Except RErrorKind (List Attr) :=
  if joinNameClash l.nodeName r.nodeName then .error .relationReferenceError
  else .ok (l.attrsOf ++ r.attrsOf)

/-- Construction of a `CrossJoinNode`. -/
def crossJoinNode (l r : RTree) : Except RErrorKind RTree :=
  match joinPre l r with
  | .ok a => .ok (.joinN .cross a none l r)
  | .error e => .error e

/-- Construction of a `NaturalJoinNode`: after the shared join
initialisation, the merged list is trimmed to the left attributes followed
by the right attributes whose unqualified name is not among the left
names, every reference taken in its qualified (`prefixed`) form. -/
def naturalJoinNode (l r : RTree) : Except RErrorKind RTree :=
  match joinPre l r with
  | .ok merged =>
    let leftRefs := l.attrsOf.map Attr.toRef
    let leftNames := attrNames l.attrsOf
    let rightRefs :=
      (r.attrsOf.filter (fun a => !(leftNames.contains a.name))).map Attr.toRef
    match trimAttrs merged (leftRefs ++ rightRefs) with
    | .ok t => .ok (.joinN .natural t none l r)
    | .error e => .error e
  | .error e => .error e

/-- Construction of a `ThetaJoinNode` (and, with the other operator tags,
of the outer-join nodes): the shared join initialisation, then validation
of the condition's references against the merged list. -/
def condJoinNode (op : JoinOp) (l r : RTree) (cond : CondNode) :
    Except RErrorKind RTree :=
  match joinPre l r with
  | .ok merged =>
    match validateRefs merged cond.attributeRefs with
    | .ok _ => .ok (.joinN op merged (some cond) l r)
    | .error e => .error e
  | .error e => .error e

/-- `ThetaJoinNode`. -/
def thetaJoinNode (l r : RTree) (cond : CondNode) := condJoinNode .theta l r cond

/-- `FullOuterJoinNode`. -/
def fullOuterJoinNode (l r : RTree) (cond : CondNode) := condJoinNode .fullOuter l r cond

/-- `LeftOuterJoinNode`. -/
def leftOuterJoinNode (l r : RTree) (cond : CondNode) := condJoinNode .leftOuter l r cond

/-- `RightOuterJoinNode`. -/
def rightOuterJoinNode (l r : RTree) (cond : CondNode) := condJoinNode .rightOuter l r cond

/-- Construction of a `SetOperatorNode`: an input error unless both
children expose identical attribute-name sequences; the resulting
attribute list is that shared sequence with no relation qualifier. -/
def setOperatorNode (op : SetOp) (l r : RTree) : Except RErrorKind RTree :=
  let names := attrNames l.attrsOf
  if names ≠ attrNames r.attrsOf then .error .inputError
  else .ok (.setopN op (bareAttrs names) l r)

/-- `UnionNode`. -/
def unionNode (l r : RTree) := setOperatorNode .unionOp l r

/-- `DifferenceNode`. -/
def differenceNode (l r : RTree) := setOperatorNode .differenceOp l r

/-- `IntersectNode`. -/
def intersectNode (l r : RTree) := setOperatorNode .intersectOp l r

/-- Construction of an `AssignNode`, threading the schema: an input error
when the name is empty or a non-empty attribute list has the wrong length
(both checked before any schema mutation); otherwise the child's
attributes are renamed and the new name is registered.  The second
component is the schema state after the call. -/
def assignNode (child : RTree) (name : String) (newNames : List String)
    (sc : Schema) : Except RErrorKind RTree × Schema :=
  if name = "" then (.error .inputError, sc)
  else if !newNames.isEmpty && newNames.length != child.attrsOf.length then
    (.error .inputError, sc)
  else
    match renameAttrs newNames (some name) child.attrsOf with
    | .error e => (.error e, sc)
    | .ok newAttrs =>
      match schemaAdd sc name (attrNames newAttrs) with
      | .error e => (.error e, sc)
      | .ok sc' => (.ok (.assignN (some name) newAttrs child), sc')

/-- The composable SQL query value of `sql_translator.py`: prefix, select,
from and where blocks.  The `alterTable` field marks the
`SQLAlterTableQuery` subclass, which overrides `to_sql` with a standalone
`ALTER TABLE` statement and carries the table name, action and attribute
string. -/
structure SQLQuery where
  pfx : String := ""
  selectBlock : String := ""
  fromBlock : String := ""
  whereBlock : String := ""
  alterTable : Option (String × String × String) := none
deriving DecidableEq, Repr

/-- `to_sql` of `SQLQuery` / `SQLSetQuery` / `SQLAlterTableQuery`.  With
`distinct = false` (bag translator's query class) the skeleton is
`SELECT <select> FROM <from>` when a select block is present and the bare
from block otherwise; with `distinct = true` (set translator's
`SQLSetQuery`) it is always `SELECT DISTINCT <select> FROM <from>`.  A
non-empty where block appends ` WHERE <conditions>`. -/
def SQLQuery.toSQL (distinct : Bool) (q : SQLQuery) : String :=
  match q.alterTable with
  | some (t, act, ats) => "ALTER TABLE " ++ t ++ " " ++ act ++ " (" ++ ats ++ ")"
  | none =>
    (if distinct then
      q.pfx ++ "SELECT DISTINCT " ++ q.selectBlock ++ " FROM " ++ q.fromBlock
    else if q.selectBlock ≠ "" then
      q.pfx ++ "SELECT " ++ q.selectBlock ++ " FROM " ++ q.fromBlock
    else
      q.pfx ++ q.fromBlock)
    ++ (if q.whereBlock ≠ "" then " WHERE " ++ q.whereBlock else "")

/-- `SQLTranslator._get_sql_operator` for join operators. -/
def JoinOp.toSQLOp : JoinOp → String
  | .cross => "CROSS JOIN"
  | .natural => "NATURAL JOIN"
  | .theta => "JOIN"
  | .fullOuter => "FULL OUTER JOIN"
  | .leftOuter => "LEFT OUTER JOIN"
  | .rightOuter => "RIGHT OUTER JOIN"

/-- `SQLTranslator._get_sql_operator` for set operators. -/
def SetOp.toSQLOp : SetOp → String
  | .unionOp => "UNION"
  | .differenceOp => "EXCEPT"
  | .intersectOp => "INTERSECT"

/-- `SQLTranslator._get_temp_name`: the node's own name when it is a
non-empty string, else a synthetic name derived from the node's identity.
The Python identity function `id` is modelled by the parameter `pid`. -/
def tempName (pid : RTree → Nat) (t : RTree) : String :=
  match t.nodeName with
  | some s => if s = "" then "_" ++ toString (pid t) else s
  | none => "_" ++ toString (pid t)

/-- Whether a node is of the join family, as tested by
`SQLTranslator._join_helper` on `node.operator`. -/
def RTree.isJoinKind : RTree → Bool
  | .joinN _ _ _ _ _ => true
  | _ => false

/-- Whether a join operator takes an `ON` clause (theta and outer joins in
`SQLTranslator._join`). -/
def JoinOp.hasOn : JoinOp → Bool
  | .theta => true
  | .fullOuter => true
  | .leftOuter => true
  | .rightOuter => true
  | _ => false

/-- The SQL translation of one tree, from `sql_translator.py`.  `bag`
selects the bag-semantics `SQLTranslator` (plain query class, `ALL` on set
operators); `bag = false` selects the set-semantics `SetTranslator`
(`SQLSetQuery`, no `ALL`).  `definition` and the four dependency kinds
without a SQL mapping translate to nothing (`None`). -/
def sqlTrans (bag : Bool) (pid : RTree → Nat) : RTree → Option SQLQuery
  | .relationN n attrs =>
    some { selectBlock := attrsStr attrs, fromBlock := n }
  | .selectN _ attrs cond child =>
    match sqlTrans bag pid child with
    | some cq =>
      let conj :=
        if cq.whereBlock ≠ "" then
          "(" ++ cq.whereBlock ++ ") AND (" ++ cond.toSQL ++ ")"
        else cond.toSQL
      let sel := if cq.selectBlock = "" then attrsStr attrs else cq.selectBlock
      some { cq with whereBlock := conj, selectBlock := sel }
    | none => none
  | .projectN _ attrs child =>
    match sqlTrans bag pid child with
    | some cq => some { cq with selectBlock := attrsStr attrs }
    | none => none
  | .renameN name attrs child =>
    match sqlTrans bag pid child with
    | some cq =>
      some { selectBlock := attrsStr attrs,
             fromBlock := "(" ++ cq.toSQL (!bag) ++ ") AS " ++ name.getD ""
               ++ "(" ++ String.intercalate ", " (attrNames attrs) ++ ")" }
    | none => none
  | .assignN name attrs child =>
    match sqlTrans bag pid child with
    | some cq =>
      some { cq with pfx := "CREATE TEMPORARY TABLE " ++ name.getD ""
               ++ "(" ++ String.intercalate ", " (attrNames attrs) ++ ") AS " }
    | none => none
  | .definitionN _ _ => none
  | .joinN op attrs cond l r =>
    match sqlTrans bag pid l, sqlTrans bag pid r with
    | some lq, some rq =>
      let lpart := if l.isJoinKind then lq.fromBlock
                   else "(" ++ lq.toSQL (!bag) ++ ") AS " ++ tempName pid l
      let rpart := if r.isJoinKind then rq.fromBlock
                   else "(" ++ rq.toSQL (!bag) ++ ") AS " ++ tempName pid r
      let fromb := lpart ++ " " ++ op.toSQLOp ++ " " ++ rpart
      let fromb' :=
        match cond with
        | some c => if op.hasOn then fromb ++ " ON " ++ c.toSQL else fromb
        | none => fromb
      some { selectBlock := attrsStr attrs, fromBlock := fromb' }
    | _, _ => none
  | t@(.setopN op attrs l r) =>
    match sqlTrans bag pid l, sqlTrans bag pid r with
    | some lq, some rq =>
      some { selectBlock := attrsStr attrs,
             fromBlock := "(" ++ lq.toSQL (!bag)
               ++ " " ++ op.toSQLOp ++ (if bag then " ALL " else " ")
               ++ rq.toSQL (!bag) ++ ") AS " ++ tempName pid t }
    | _, _ => none
  | .pkN rel attrs =>
    some { alterTable := some (rel, "ADD PRIMARY KEY", String.intercalate ", " attrs) }
  | .mvdN _ _ _ => none
  | .fdN _ _ _ => none
  | .incEqN _ _ _ _ => none
  | .incSubN _ _ _ _ => none

/-- The batch-level `translate` of `sql_translator.py`: translates each
root in order and keeps the `to_sql` string of every non-`None` result. -/
def sqlBatch (useBag : Bool) (pid : RTree → Nat) (roots : List RTree) :
    List String :=
  roots.filterMap (fun t => (sqlTrans useBag pid t).map (·.toSQL (!useBag)))

/-- Escapes underscores for LaTeX (`name.replace('_', r'\_')` in
`qtree_translator.py`; the single-character replacement is modelled as a
character fold). -/
def escapeU (s : String) : String :=
  ⟨s.data.foldr (fun c acc => if c = '_' then '\\' :: '_' :: acc else c :: acc) []⟩

/-- LaTeX operator labels for AST operators, from
`transformers/qtree/constants.py` (join family). -/
def JoinOp.toLatexOp : JoinOp → String
  | .cross => "\\times"
  | .natural => "\\bowtie"
  | .theta => "\\times"
  | .fullOuter => "\\fullouterjoin"
  | .leftOuter => "\\leftouterjoin"
  | .rightOuter => "\\rightouterjoin"

/-- LaTeX operator labels for set operators
(`transformers/qtree/constants.py`). -/
def SetOp.toLatexOp : SetOp → String
  | .unionOp => "\\cup"
  | .differenceOp => "-"
  | .intersectOp => "\\cap"

/-- LaTeX comma join of a name list (`r",\,".join(...)`). -/
def latexJoin (ns : List String) : String :=
  String.intercalate ",\\," ns

/-- Display of a possibly select-filtered dependency child in the
dependency label methods of `qtree_translator.py`. -/
def depChildLabel : RTree → String
  | .selectN name _ cond _ =>
    "\\sigma_\x7b" ++ cond.toLatex ++ "\x7d (" ++ name.getD "" ++ ")"
  | t => (t.nodeName).getD ""

/-- The qtree translation of one tree, from `qtree_translator.py`: one
bracket level per node, with operator-specific label formatting. -/
def qtreeTrans : RTree → String
  | .relationN n _ => "[.$" ++ escapeU n ++ "$ ]"
  | .selectN _ _ cond child =>
    "[.$\\sigma_\x7b" ++ cond.toLatex ++ "\x7d$ " ++ qtreeTrans child ++ " ]"
  | .projectN _ attrs child =>
    "[.$\\pi_\x7b" ++ latexJoin (attrNames attrs) ++ "\x7d$ "
      ++ qtreeTrans child ++ " ]"
  | .renameN name attrs child =>
    "[.$\\rho_\x7b" ++ escapeU (name.getD "")
      ++ (if attrs ≠ [] then "(" ++ latexJoin (attrNames attrs) ++ ")" else "")
      ++ "\x7d$ " ++ qtreeTrans child ++ " ]"
  | .assignN name attrs child =>
    "[.$" ++ escapeU (name.getD "")
      ++ (if attrs ≠ [] then "(" ++ latexJoin (attrNames attrs) ++ ")" else "")
      ++ "$ " ++ qtreeTrans child ++ " ]"
  | .definitionN n attrs =>
    "[.$" ++ escapeU n ++ "(" ++ latexJoin (attrNames attrs) ++ ")$ ]"
  | .joinN op _ cond l r =>
    if op.hasOn then
      "[.$" ++ op.toLatexOp ++ "_\x7b"
        ++ (match cond with | some c => c.toLatex | none => "") ++ "\x7d$ "
        ++ qtreeTrans l ++ " " ++ qtreeTrans r ++ " ]"
    else
      "[.$" ++ op.toLatexOp ++ "$ " ++ qtreeTrans l ++ " " ++ qtreeTrans r ++ " ]"
  | .setopN op _ l r =>
    "[.$" ++ op.toLatexOp ++ "$ " ++ qtreeTrans l ++ " " ++ qtreeTrans r ++ " ]"
  | .pkN rel attrs =>
    "[.$\\text\x7bPK\x7d(" ++ rel ++ ") \\eq \x7b" ++ latexJoin attrs ++ "\x7d$ ]"
  | .mvdN _ attrs child =>
    "[.$" ++ depChildLabel child ++ " : " ++ (attrs.headD "")
      ++ " \\twoheadrightarrow " ++ (attrs.getD 1 "") ++ "$ ]"
  | .fdN _ attrs child =>
    "[.$" ++ depChildLabel child ++ " : " ++ (attrs.headD "")
      ++ " \\rightarrow " ++ (attrs.getD 1 "") ++ "$ ]"
  | .incEqN _ attrs lc rc =>
    "[.$" ++ depChildLabel lc ++ "[" ++ (attrs.headD "") ++ "] \\equiv "
      ++ depChildLabel rc ++ "[" ++ (attrs.getD 1 "") ++ "]$ ]"
  | .incSubN _ attrs lc rc =>
    "[.$" ++ depChildLabel lc ++ "[" ++ (attrs.headD "") ++ "] \\subseteq "
      ++ depChildLabel rc ++ "[" ++ (attrs.getD 1 "") ++ "]$ ]"

/-- The batch-level `translate` of `qtree_translator.py`: each root's
translation prefixed by `\Tree`, one output per input root. -/
def qtreeBatch (roots : List RTree) : List String :=
  roots.map (fun t => "\\Tree" ++ qtreeTrans t)

/-- Whether a character list starts with a given pattern. -/
def pStart : List Char → List Char → Bool
  | _, [] => true
  | [], _ :: _ => false
  | a :: as, b :: bs => a == b && pStart as bs

/-- Whether a character list contains a given pattern as a contiguous
sub-sequence. -/
def pSubL (hay pat : List Char) : Bool :=
  match hay with
  | [] => pStart [] pat
  | _ :: t => pStart hay pat || pSubL t pat

/-- Whether a string contains another as a substring. -/
def pSub (s pat : String) : Bool := pSubL s.data pat.data

/-- Drops leading whitespace, as pyparsing does before every token. -/
def skipWs : List Char → List Char
  | c :: cs => if c == ' ' || c == '\n' || c == '\t' || c == '\r' then skipWs cs else c :: cs
  | [] => []

/-- A literal token (`pyparsing.Literal`): skips leading whitespace, then
requires the exact characters. -/
def litTok (s : String) (cs : List Char) : Option (List Char) :=
  let cs := skipWs cs
  if pStart cs s.data then some (cs.drop s.data.length) else none

/-- Identifier body characters (`character ::= letter | digit | "_"`,
`proto_grammar.py`). -/
def isIdentChar (c : Char) : Bool := c.isAlphanum || c == '_'

/-- An identifier (`identifier ::= letter | letter string`), downcased on
success as by `downcaseTokens` in `proto_grammar.py`. -/
def identTok (cs : List Char) : Option (String × List Char) :=
  match skipWs cs with
  | c :: rest =>
    if c.isAlpha then
      some (⟨(c :: rest.takeWhile isIdentChar).map Char.toLower⟩,
            rest.dropWhile isIdentChar)
    else none
  | [] => none

/-- Case-insensitive character-list prefix test for keywords. -/
def pStartCaseless : List Char → List Char → Bool
  | _, [] => true
  | [], _ :: _ => false
  | a :: as, b :: bs => a.toLower == b.toLower && pStartCaseless as bs

/-- A keyword token (`pyparsing.CaselessKeyword`): case-insensitive match
that must not be followed by an identifier character. -/
def kwTok (s : String) (cs : List Char) : Option (List Char) :=
  let cs := skipWs cs
  if pStartCaseless cs s.data then
    let rest := cs.drop s.data.length
    match rest with
    | c :: _ => if isIdentChar c then none else some rest
    | [] => some rest
  else none

/-- A quoted string literal (`quotedString` in `proto_grammar.py`,
simplified to quote-delimited runs without embedded quotes). -/
def quotedTok (cs : List Char) : Option (List Char) :=
  match skipWs cs with
  | q :: rest =>
    if q == '\'' || q == '"' then
      match rest.dropWhile (fun c => c != q) with
      | _ :: rest' => some rest'
      | [] => none
    else none
  | [] => none

/-- A numeric literal (the regex `[-+]?[0-9]*\.?[0-9]+` of
`proto_grammar.py`, modelled as sign, digits and at most one dot with at
least one digit). -/
def numberTok (cs : List Char) : Option (List Char) :=
  match skipWs cs with
  | c :: rest =>
    let body := if c == '+' || c == '-' then rest else c :: rest
    let run := body.takeWhile (fun d => d.isDigit || d == '.')
    if run.any Char.isDigit && run.countP (· == '.') ≤ 1 then
      some (body.dropWhile (fun d => d.isDigit || d == '.'))
    else none
  | [] => none

/-- A comparison operand (`operand ::= attribute_reference |
string_literal | number`, `condition_grammar.py`); an attribute reference
is an identifier optionally followed, without whitespace, by a dot and a
second identifier. -/
def operandTok (cs : List Char) : Option (List Char) :=
  match identTok cs with
  | some (_, rest) =>
    match rest with
    | '.' :: c :: rest' =>
      if c.isAlpha then some (rest'.dropWhile isIdentChar) else some rest
    | _ => some rest
  | none =>
    match quotedTok cs with
    | some rest => some rest
    | none => numberTok cs

/-- A comparison operator (`oneOf` over the comparison tokens of
`syntax.py`, longest match first). -/
def comparatorTok (cs : List Char) : Option (List Char) :=
  let cs := skipWs cs
  let try2 := fun (s : String) => if pStart cs s.data then some (cs.drop 2) else none
  match try2 "!=" with
  | some r => some r
  | none =>
  match try2 "<>" with
  | some r => some r
  | none =>
  match try2 "<=" with
  | some r => some r
  | none =>
  match try2 ">=" with
  | some r => some r
  | none =>
    match cs with
    | c :: rest => if c == '=' || c == '<' || c == '>' then some rest else none
    | [] => none

/-- A base condition (`condition ::= operand comparator_op operand`) or a
`defined(operand)` atom (`extended_grammar.py`). -/
def baseCondTok (cs : List Char) : Option (List Char) :=
  match kwTok "defined" cs with
  | some rest =>
    match litTok "(" rest with
    | some rest' =>
      match operandTok rest' with
      | some rest'' => litTok ")" rest''
      | none => none
    | none => none
  | none =>
    match operandTok cs with
    | some r1 =>
      match comparatorTok r1 with
      | some r2 => operandTok r2
      | none => none
    | none => none

mutual

/-- A condition atom of the `infixNotation` tower of
`condition_grammar.py`: a parenthesised condition expression or a base
condition, under any number of leading `not` keywords. -/
def condAtomTok (fuel : Nat) (cs : List Char) : Option (List Char) :=
  match fuel with
  | 0 => none
  | fuel + 1 =>
    match kwTok "not" cs with
    | some rest => condAtomTok fuel rest
    | none =>
      match litTok "(" cs with
      | some rest =>
        match condsTok fuel rest with
        | some rest' => litTok ")" rest'
        | none => baseCondTok cs
      | none => baseCondTok cs

/-- A condition expression: a chain of condition atoms joined by the
equal-precedence, left-associative `and` / `or` keywords. -/
def condsTok (fuel : Nat) (cs : List Char) : Option (List Char) :=
  match fuel with
  | 0 => none
  | fuel + 1 =>
    match condAtomTok fuel cs with
    | some rest => condsChainTok fuel rest
    | none => none

/-- The trailing `(and|or) atom` repetitions of a condition chain. -/
def condsChainTok (fuel : Nat) (cs : List Char) : Option (List Char) :=
  match fuel with
  | 0 => some cs
  | fuel + 1 =>
    match kwTok "and" cs with
    | some rest =>
      match condAtomTok fuel rest with
      | some rest' => condsChainTok fuel rest'
      | none => none
    | none =>
      match kwTok "or" cs with
      | some rest =>
        match condAtomTok fuel rest with
        | some rest' => condsChainTok fuel rest'
        | none => none
      | none => some cs

end

/-- A parsed dependency statement, distinguishing the grammar alternative
that matched. -/
inductive ParsedDep where
  | pk (attrs : List String) (rel : String)
  | mvd (a b : String) (rel : String)
  | fdBare (a b : String) (rel : String)
  | fdSel (a b : String) (rel : String)
  | incEq (a b r1 r2 : String)
  | incSub (a b r1 r2 : String)
deriving DecidableEq, Repr

/-- A comma-separated identifier list (the `attribute_list` rule used by
`pk_dep`; the core grammar module is absent, the rule is modelled from the
spec's `pk_{attrs} R;` form). -/
def identListTok (fuel : Nat) (cs : List Char) : Option (List String × List Char) :=
  match identTok cs with
  | some (n, rest) =>
    match fuel with
    | 0 => some ([n], rest)
    | fuel + 1 =>
      match litTok "," rest with
      | some rest' =>
        match identListTok fuel rest' with
        | some (ns, rest'') => some (n :: ns, rest'')
        | none => none
      | none => some ([n], rest)
  | none => none

/-- The two-attribute parameter block `_{a, b}` shared by `mvd_dep`,
`fd_dep` and the inclusion rules (`parameter` wraps its body between the
`params_start` and `params_stop` tokens). -/
def pairParamTok (cs : List Char) : Option ((String × String) × List Char) :=
  match litTok "_\x7b" cs with
  | some r1 =>
    match identTok r1 with
    | some (a, r2) =>
      match litTok "," r2 with
      | some r3 =>
        match identTok r3 with
        | some (b, r4) =>
          match litTok "\x7d" r4 with
          | some r5 => some ((a, b), r5)
          | none => none
        | none => none
      | none => none
    | none => none
  | none => none

/-- `pk_dep ::= pk param_start attribute_list param_stop relation_name`. -/
def pkDepTok (cs : List Char) : Option (ParsedDep × List Char) :=
  match litTok "pk" cs with
  | some r1 =>
    match litTok "_\x7b" r1 with
    | some r2 =>
      match identListTok r2.length r2 with
      | some (ns, r3) =>
        match litTok "\x7d" r3 with
        | some r4 =>
          match identTok r4 with
          | some (rel, r5) => some (.pk ns rel, r5)
          | none => none
        | none => none
      | none => none
    | none => none
  | none => none

/-- `mvd_dep ::= mvd param_start attribute_name delim attribute_name
param_stop relation_name` — the target is a bare relation name only. -/
def mvdDepTok (cs : List Char) : Option (ParsedDep × List Char) :=
  match litTok "mvd" cs with
  | some r1 =>
    match pairParamTok r1 with
    | some ((a, b), r2) =>
      match identTok r2 with
      | some (rel, r3) => some (.mvd a b rel, r3)
      | none => none
    | none => none
  | none => none

/-- `fd_dep ::= fd param_start attribute_name delim attribute_name
param_stop ((select param_start conditions param_stop relation_name) |
relation_name)` — the target may be `\select`-filtered. -/
def fdDepTok (cs : List Char) : Option (ParsedDep × List Char) :=
  match litTok "fd" cs with
  | some r1 =>
    match pairParamTok r1 with
    | some ((a, b), r2) =>
      match litTok "\\select" r2 with
      | some r3 =>
        match litTok "_\x7b" r3 with
        | some r4 =>
          match condsTok r4.length r4 with
          | some r5 =>
            match litTok "\x7d" r5 with
            | some r6 =>
              match identTok r6 with
              | some (rel, r7) => some (.fdSel a b rel, r7)
              | none => none
            | none => none
          | none => none
        | none => none
      | none =>
        match identTok r2 with
        | some (rel, r3) => some (.fdBare a b rel, r3)
        | none => none
    | none => none
  | none => none

/-- `inc_eq_dep` and `inc_subs_dep`: the operator literal, the attribute
pair, then a parenthesised relation-name pair. -/
def incDepTok (opLit : String) (mk : String → String → String → String → ParsedDep)
    (cs : List Char) : Option (ParsedDep × List Char) :=
  match litTok opLit cs with
  | some r1 =>
    match pairParamTok r1 with
    | some ((a, b), r2) =>
      match litTok "(" r2 with
      | some r3 =>
        match identTok r3 with
        | some (x, r4) =>
          match litTok "," r4 with
          | some r5 =>
            match identTok r5 with
            | some (y, r6) =>
              match litTok ")" r6 with
              | some r7 => some (mk a b x y, r7)
              | none => none
            | none => none
          | none => none
        | none => none
      | none => none
    | none => none
  | none => none

/-- `dep ::= pk_dep | mvd_dep | fd_dep | inc_eq_dep | inc_subs_dep`
(a first-match alternation, as in pyparsing's `|`). -/
def depTok (cs : List Char) : Option (ParsedDep × List Char) :=
  match pkDepTok cs with
  | some r => some r
  | none =>
  match mvdDepTok cs with
  | some r => some r
  | none =>
  match fdDepTok cs with
  | some r => some r
  | none =>
  match incDepTok "inc=" ParsedDep.incEq cs with
  | some r => some r
  | none => incDepTok "inc⊆" ParsedDep.incSub cs

/-- `statement ::= dep terminate`. -/
def depStatementTok (cs : List Char) : Option (ParsedDep × List Char) :=
  match depTok cs with
  | some (d, rest) =>
    match litTok ";" rest with
    | some rest' => some (d, rest')
    | none => none
  | none => none

/-- `statements ::= OneOrMore statement`. -/
def depStatementsTok (fuel : Nat) (cs : List Char) :
    Option (List ParsedDep × List Char) :=
  match depStatementTok cs with
  | some (d, rest) =>
    match fuel with
    | 0 => some ([d], rest)
    | fuel + 1 =>
      match depStatementsTok fuel rest with
      | some (ds, rest') => some (d :: ds, rest')
      | none => some ([d], rest)
  | none => none

/-- `DependencyGrammar.parse`: parses a whole input with
`parseAll=True` — the statement list must consume the input up to
trailing whitespace, else the parse fails. -/
def parseDeps (s : String) : Option (List ParsedDep) :=
  match depStatementsTok s.data.length s.data with
  | some (ds, rest) => if skipWs rest = [] then some ds else none
  | none => none

/-- A fixed identity assignment for concrete translation runs (the Python
`id` function is an arbitrary `Nat`-valued assignment; any value works for
the properties below). -/
def pid0 : RTree → Nat := fun _ => 0

/-- The schema of the spec's bag-versus-set scenario: `alpha` and
`alpha_copy` with identical attribute lists. -/
def unionExampleSchema : Schema :=
  [("alpha", ["a1", "a2", "a3"]), ("alpha_copy", ["a1", "a2", "a3"])]

/-- The tree of the statement `alpha \union alpha_copy;` against
`unionExampleSchema`. -/
def unionExample : RTree :=
  .setopN .unionOp (bareAttrs ["a1", "a2", "a3"])
    (.relationN "alpha" (relAttrs "alpha" ["a1", "a2", "a3"]))
    (.relationN "alpha_copy" (relAttrs "alpha_copy" ["a1", "a2", "a3"]))

/-- Whether a tree is a pure relational-algebra expression: relation
leaves combined by the unary, join and set-operator families (the shapes
the tree builder produces below statement level). -/
def wfExpr : RTree → Bool
  | .relationN _ _ => true
  | .selectN _ _ _ c => wfExpr c
  | .projectN _ _ c => wfExpr c
  | .renameN _ _ c => wfExpr c
  | .assignN _ _ c => wfExpr c
  | .joinN _ _ _ l r => wfExpr l && wfExpr r
  | .setopN _ _ l r => wfExpr l && wfExpr r
  | _ => false

/-- Whether a tree is one of the four dependency statements without a SQL
mapping (multivalued, functional, inclusion equivalence, inclusion
subsumption). -/
def skippedDep : RTree → Bool
  | .mvdN _ _ _ => true
  | .fdN _ _ _ => true
  | .incEqN _ _ _ _ => true
  | .incSubN _ _ _ _ => true
  | _ => false

/-- Whether a tree is a definition statement. -/
def isDefN : RTree → Bool
  | .definitionN _ _ => true
  | _ => false

/-- A well-formed top-level statement: an expression, a definition, or a
dependency statement. -/
def wfStmt (t : RTree) : Bool :=
  wfExpr t || isDefN t || skippedDep t ||
    (match t with | .pkN _ _ => true | _ => false)

theorem attrNames_relAttrs (r : String) (ns : List String) :
    attrNames (relAttrs r ns) = ns := by
  simp only [attrNames, relAttrs, List.map_map, Function.comp_def]
  exact List.map_id ns

theorem trimAttrs_of_forall₂ {l : List Attr} {refs : List AttrRef}
    {out : List Attr}
    (h : List.Forall₂ (fun r a => l.filter (refMatches r) = [a]) refs out) :
    trimAttrs l refs = .ok out := by
  induction h with
  | nil => rfl
  | @cons r a rs as hra _ ih => simp [trimAttrs, hra, ih]

theorem forall₂_map_map {α β γ : Type} {P : β → γ → Prop} (f : α → β)
    (g : α → γ) {l : List α} (h : ∀ x ∈ l, P (f x) (g x)) :
    List.Forall₂ P (l.map f) (l.map g) := by
  induction l with
  | nil => exact .nil
  | cons a t ih =>
    exact .cons (h a (List.mem_cons_self a t))
      (ih fun x hx => h x (List.mem_cons_of_mem a hx))

theorem forall₂_append_both {α β : Type} {P : α → β → Prop}
    {a c : List α} {b d : List β} (h₁ : List.Forall₂ P a b)
    (h₂ : List.Forall₂ P c d) : List.Forall₂ P (a ++ c) (b ++ d) := by
  induction h₁ with
  | nil => exact h₂
  | cons hx _ ih => exact .cons hx ih

theorem refMatches_relAttrs_entry (r r' x n : String) :
    refMatches ⟨some r, x⟩ ⟨some r', n⟩ = ((r' == r) && (n == x)) := by
  simp [refMatches]

theorem filter_relAttrs_same_rel_not_mem {r r' x : String} {ns : List String}
    (hx : x ∉ ns) :
    (relAttrs r' ns).filter (refMatches ⟨some r, x⟩) = [] := by
  refine List.filter_eq_nil_iff.mpr ?_
  intro a ha
  simp only [relAttrs, List.mem_map] at ha
  obtain ⟨n, hn, rfl⟩ := ha
  rw [refMatches_relAttrs_entry]
  simp only [Bool.and_eq_true, beq_iff_eq, not_and]
  intro _ hnx
  exact absurd (hnx ▸ hn) hx

theorem filter_relAttrs_same_rel_mem {r x : String} {ns : List String}
    (hnd : ns.Nodup) (hx : x ∈ ns) :
    (relAttrs r ns).filter (refMatches ⟨some r, x⟩) = [⟨some r, x⟩] := by
  induction ns with
  | nil => cases hx
  | cons n t ih =>
    rcases List.nodup_cons.mp hnd with ⟨hn, hnd'⟩
    by_cases hnx : n = x
    · subst hnx
      have hcond : refMatches ⟨some r, n⟩ (⟨some r, n⟩ : Attr) = true := by
        rw [refMatches_relAttrs_entry]; simp
      have : relAttrs r (n :: t) = ⟨some r, n⟩ :: relAttrs r t := rfl
      rw [this, List.filter_cons_of_pos hcond,
        @filter_relAttrs_same_rel_not_mem r r n t hn]
    · have hcond : refMatches ⟨some r, x⟩ (⟨some r, n⟩ : Attr) = false := by
        rw [refMatches_relAttrs_entry]; simp [hnx]
      have : relAttrs r (n :: t) = ⟨some r, n⟩ :: relAttrs r t := rfl
      rw [this, List.filter_cons_of_neg (by simp [hcond])]
      exact ih hnd' ((List.mem_cons.mp hx).resolve_left (fun h => hnx h.symm))

theorem filter_relAttrs_other_rel {r r' x : String} {ns : List String}
    (h : r' ≠ r) :
    (relAttrs r' ns).filter (refMatches ⟨some r, x⟩) = [] := by
  refine List.filter_eq_nil_iff.mpr ?_
  intro a ha
  simp only [relAttrs, List.mem_map] at ha
  obtain ⟨n, hn, rfl⟩ := ha
  rw [refMatches_relAttrs_entry]
  simp [h]

theorem filter_beq_nil_of_not_mem {ns : List String} {s : String}
    (h : s ∉ ns) : ns.filter (fun y => y == s) = [] := by
  refine List.filter_eq_nil_iff.mpr ?_
  intro y hy
  simp only [beq_iff_eq]
  exact fun hys => h (hys ▸ hy)

theorem filter_beq_singleton_of_nodup {ns : List String} {s : String}
    (hnd : ns.Nodup) (hs : s ∈ ns) : ns.filter (fun y => y == s) = [s] := by
  induction ns with
  | nil => cases hs
  | cons n t ih =>
    rcases List.nodup_cons.mp hnd with ⟨hn, hnd'⟩
    by_cases hns : n = s
    · subst hns
      rw [List.filter_cons_of_pos (by simp), filter_beq_nil_of_not_mem hn]
    · rw [List.filter_cons_of_neg (by simp [hns])]
      exact ih hnd' ((List.mem_cons.mp hs).resolve_left (fun h => hns h.symm))

theorem filter_name_relAttrs (r s : String) (ns : List String) :
    (relAttrs r ns).filter (fun a => a.name == s)
      = (ns.filter (fun y => y == s)).map (fun y => (⟨some r, y⟩ : Attr)) := by
  simp [relAttrs, List.filter_map, Function.comp_def]

/-- C1: for a natural join of two relation nodes over distinct relations
whose duplicate-free attribute lists share exactly one name `s`,
construction succeeds, the resulting attribute list is the left attributes
followed by the right attributes whose name does not occur on the left
(right-side duplicates dropped), its length is `|left| + |right| - 1`, and
the shared name occurs exactly once, qualified by the left relation. -/
theorem natural_join_shared_attribute
    (rl rr s : String) (L R : List String)
    (hne : rl ≠ rr) (hL : L.Nodup) (hR : R.Nodup)
    (hsh : R.filter (fun y => L.contains y) = [s]) :
    naturalJoinNode (.relationN rl (relAttrs rl L)) (.relationN rr (relAttrs rr R))
      = .ok (.joinN .natural
          (relAttrs rl L ++ relAttrs rr (R.filter (fun y => !(L.contains y))))
          none (.relationN rl (relAttrs rl L)) (.relationN rr (relAttrs rr R)))
    ∧ (relAttrs rl L ++ relAttrs rr (R.filter (fun y => !(L.contains y)))).length
        = L.length + R.length - 1
    ∧ (relAttrs rl L ++ relAttrs rr (R.filter (fun y => !(L.contains y)))).filter
        (fun a => a.name == s) = [⟨some rl, s⟩] := by
  have hsRf : s ∈ R.filter (fun y => L.contains y) := by
    rw [hsh]; exact List.mem_singleton.mpr rfl
  have hsR : s ∈ R := (List.mem_filter.mp hsRf).1
  have hsL : s ∈ L := List.elem_iff.mp (List.mem_filter.mp hsRf).2
  have hclash : joinNameClash (RTree.nodeName (.relationN rl (relAttrs rl L)))
      (RTree.nodeName (.relationN rr (relAttrs rr R))) = false := by
    simp [joinNameClash, RTree.nodeName, hne]
  have hfr : (relAttrs rr R).filter (fun a => !(L.contains a.name))
      = (R.filter (fun y => !(L.contains y))).map (fun y => (⟨some rr, y⟩ : Attr)) := by
    simp [relAttrs, List.filter_map, Function.comp_def]
  have htrim : trimAttrs (relAttrs rl L ++ relAttrs rr R)
      ((relAttrs rl L).map Attr.toRef
        ++ ((relAttrs rr R).filter
            (fun a => !((attrNames (relAttrs rl L)).contains a.name))).map Attr.toRef)
      = .ok (relAttrs rl L ++ relAttrs rr (R.filter (fun y => !(L.contains y)))) := by
    rw [attrNames_relAttrs, hfr]
    apply trimAttrs_of_forall₂
    apply forall₂_append_both
    · have : (relAttrs rl L).map Attr.toRef
          = L.map (fun x => (⟨some rl, x⟩ : AttrRef)) := by
        simp [relAttrs, List.map_map, Function.comp_def, Attr.toRef]
      rw [this]
      exact forall₂_map_map _ _ (fun x hx => by
        rw [List.filter_append, filter_relAttrs_same_rel_mem hL hx,
          filter_relAttrs_other_rel hne.symm, List.append_nil])
    · have : ((R.filter (fun y => !(L.contains y))).map
            (fun y => (⟨some rr, y⟩ : Attr))).map Attr.toRef
          = (R.filter (fun y => !(L.contains y))).map
            (fun y => (⟨some rr, y⟩ : AttrRef)) := by
        simp [List.map_map, Function.comp_def, Attr.toRef]
      rw [this, show relAttrs rr (R.filter (fun y => !(L.contains y)))
          = (R.filter (fun y => !(L.contains y))).map
            (fun y => (⟨some rr, y⟩ : Attr)) from rfl]
      exact forall₂_map_map _ _ (fun y hy => by
        have hyR : y ∈ R := (List.mem_filter.mp hy).1
        rw [List.filter_append, filter_relAttrs_other_rel hne,
          filter_relAttrs_same_rel_mem hR hyR, List.nil_append])
  refine ⟨?_, ?_, ?_⟩
  · simp only [naturalJoinNode, joinPre, RTree.attrsOf, hclash, Bool.false_eq_true,
      if_false, htrim]
  · have hlenR := List.length_eq_length_filter_add (l := R) (fun y => L.contains y)
    rw [hsh] at hlenR
    simp only [List.length_append, relAttrs, List.length_map, List.length_cons,
      List.length_nil] at hlenR ⊢
    omega
  · rw [List.filter_append, filter_name_relAttrs, filter_name_relAttrs,
      filter_beq_singleton_of_nodup hL hsL]
    have hnil : (R.filter (fun y => !(L.contains y))).filter (fun y => y == s) = [] := by
      refine List.filter_eq_nil_iff.mpr ?_
      intro y hy
      simp only [beq_iff_eq]
      intro hys
      subst hys
      have hmf := (List.mem_filter.mp hy).2
      have h1 : L.contains y = true := List.elem_iff.mpr hsL
      rw [h1] at hmf
      simp at hmf
    rw [hnil]
    simp

/-- Witness for C1: `alpha(a1, a2)` natural-joined with `beta(a1, b1)`
shares exactly the name `a1`; the result has the three attributes
`alpha.a1, alpha.a2, beta.b1`. -/
theorem natural_join_shared_attribute_witness :
    naturalJoinNode (.relationN "alpha" (relAttrs "alpha" ["a1", "a2"]))
        (.relationN "beta" (relAttrs "beta" ["a1", "b1"]))
      = .ok (.joinN .natural
          (relAttrs "alpha" ["a1", "a2"]
            ++ relAttrs "beta" (["a1", "b1"].filter (fun y => !(["a1", "a2"].contains y))))
          none (.relationN "alpha" (relAttrs "alpha" ["a1", "a2"]))
          (.relationN "beta" (relAttrs "beta" ["a1", "b1"])))
    ∧ (relAttrs "alpha" ["a1", "a2"]
        ++ relAttrs "beta" (["a1", "b1"].filter (fun y => !(["a1", "a2"].contains y)))).length
        = (["a1", "a2"] : List String).length + (["a1", "b1"] : List String).length - 1
    ∧ (relAttrs "alpha" ["a1", "a2"]
        ++ relAttrs "beta" (["a1", "b1"].filter (fun y => !(["a1", "a2"].contains y)))).filter
        (fun a => a.name == "a1") = [⟨some "alpha", "a1"⟩] :=
  natural_join_shared_attribute "alpha" "beta" "a1" ["a1", "a2"] ["a1", "b1"]
    (by decide) (by decide) (by decide) (by decide)

/-- C4: constructing a Union, Difference or Intersect node from children
whose attribute-name sequences differ raises an Input Error; when the
sequences agree, construction succeeds and the node's attribute list is
that shared name sequence with no relation qualifier. -/
theorem set_operator_schema_guard (l r : RTree) :
    (attrNames l.attrsOf ≠ attrNames r.attrsOf →
      unionNode l r = .error .inputError
      ∧ differenceNode l r = .error .inputError
      ∧ intersectNode l r = .error .inputError)
    ∧ (attrNames l.attrsOf = attrNames r.attrsOf →
      unionNode l r = .ok (.setopN .unionOp (bareAttrs (attrNames l.attrsOf)) l r)
      ∧ differenceNode l r = .ok (.setopN .differenceOp (bareAttrs (attrNames l.attrsOf)) l r)
      ∧ intersectNode l r = .ok (.setopN .intersectOp (bareAttrs (attrNames l.attrsOf)) l r)) := by
  constructor
  · intro h
    refine ⟨?_, ?_, ?_⟩ <;>
      simp [unionNode, differenceNode, intersectNode, setOperatorNode, h]
  · intro h
    refine ⟨?_, ?_, ?_⟩ <;>
      simp [unionNode, differenceNode, intersectNode, setOperatorNode, h]

/-- Witness for C4: `beta(b1, b2)` against `gamma(g1)` fails for all
three set operators; `beta(b1, b2)` against `betb(b1, b2)` succeeds with
an unqualified attribute list. -/
theorem set_operator_schema_guard_witness :
    (unionNode (.relationN "beta" (relAttrs "beta" ["b1", "b2"]))
        (.relationN "gamma" (relAttrs "gamma" ["g1"])) = .error .inputError
      ∧ differenceNode (.relationN "beta" (relAttrs "beta" ["b1", "b2"]))
        (.relationN "gamma" (relAttrs "gamma" ["g1"])) = .error .inputError
      ∧ intersectNode (.relationN "beta" (relAttrs "beta" ["b1", "b2"]))
        (.relationN "gamma" (relAttrs "gamma" ["g1"])) = .error .inputError)
    ∧ (unionNode (.relationN "beta" (relAttrs "beta" ["b1", "b2"]))
        (.relationN "betb" (relAttrs "betb" ["b1", "b2"]))
        = .ok (.setopN .unionOp
            (bareAttrs (attrNames (RTree.relationN "beta" (relAttrs "beta" ["b1", "b2"])).attrsOf))
            (.relationN "beta" (relAttrs "beta" ["b1", "b2"]))
            (.relationN "betb" (relAttrs "betb" ["b1", "b2"])))
      ∧ differenceNode (.relationN "beta" (relAttrs "beta" ["b1", "b2"]))
        (.relationN "betb" (relAttrs "betb" ["b1", "b2"]))
        = .ok (.setopN .differenceOp
            (bareAttrs (attrNames (RTree.relationN "beta" (relAttrs "beta" ["b1", "b2"])).attrsOf))
            (.relationN "beta" (relAttrs "beta" ["b1", "b2"]))
            (.relationN "betb" (relAttrs "betb" ["b1", "b2"])))
      ∧ intersectNode (.relationN "beta" (relAttrs "beta" ["b1", "b2"]))
        (.relationN "betb" (relAttrs "betb" ["b1", "b2"]))
        = .ok (.setopN .intersectOp
            (bareAttrs (attrNames (RTree.relationN "beta" (relAttrs "beta" ["b1", "b2"])).attrsOf))
            (.relationN "beta" (relAttrs "beta" ["b1", "b2"]))
            (.relationN "betb" (relAttrs "betb" ["b1", "b2"])))) :=
  ⟨(set_operator_schema_guard _ _).1 (by decide),
   (set_operator_schema_guard _ _).2 (by decide)⟩

/-- C5: every join construction (cross, natural, theta or outer) whose
children both carry the same non-empty name raises a Relation Reference
Error. -/
theorem join_ambiguous_reference_guard (l r : RTree) (s : String) (c : CondNode)
    (hl : l.nodeName = some s) (hr : r.nodeName = some s) (hs : s ≠ "") :
    crossJoinNode l r = .error .relationReferenceError
    ∧ naturalJoinNode l r = .error .relationReferenceError
    ∧ thetaJoinNode l r c = .error .relationReferenceError
    ∧ fullOuterJoinNode l r c = .error .relationReferenceError
    ∧ leftOuterJoinNode l r c = .error .relationReferenceError
    ∧ rightOuterJoinNode l r c = .error .relationReferenceError := by
  have hclash : joinNameClash l.nodeName r.nodeName = true := by
    rw [hl, hr]
    simp [joinNameClash, hs]
  refine ⟨?_, ?_, ?_, ?_, ?_, ?_⟩ <;>
    simp [crossJoinNode, naturalJoinNode, thetaJoinNode, fullOuterJoinNode,
      rightOuterJoinNode, leftOuterJoinNode, condJoinNode, joinPre, hclash]

/-- Witness for C5: joining the relation `alpha` with itself fails with
a Relation Reference Error for all six join constructors. -/
theorem join_ambiguous_reference_guard_witness :
    crossJoinNode (.relationN "alpha" (relAttrs "alpha" ["a1", "a2"]))
        (.relationN "alpha" (relAttrs "alpha" ["a1", "a2"]))
      = .error .relationReferenceError
    ∧ naturalJoinNode (.relationN "alpha" (relAttrs "alpha" ["a1", "a2"]))
        (.relationN "alpha" (relAttrs "alpha" ["a1", "a2"]))
      = .error .relationReferenceError
    ∧ thetaJoinNode (.relationN "alpha" (relAttrs "alpha" ["a1", "a2"]))
        (.relationN "alpha" (relAttrs "alpha" ["a1", "a2"])) (.ident "a1")
      = .error .relationReferenceError
    ∧ fullOuterJoinNode (.relationN "alpha" (relAttrs "alpha" ["a1", "a2"]))
        (.relationN "alpha" (relAttrs "alpha" ["a1", "a2"])) (.ident "a1")
      = .error .relationReferenceError
    ∧ leftOuterJoinNode (.relationN "alpha" (relAttrs "alpha" ["a1", "a2"]))
        (.relationN "alpha" (relAttrs "alpha" ["a1", "a2"])) (.ident "a1")
      = .error .relationReferenceError
    ∧ rightOuterJoinNode (.relationN "alpha" (relAttrs "alpha" ["a1", "a2"]))
        (.relationN "alpha" (relAttrs "alpha" ["a1", "a2"])) (.ident "a1")
      = .error .relationReferenceError :=
  join_ambiguous_reference_guard _ _ "alpha" (.ident "a1") rfl rfl (by decide)

/-- C10: when AssignNode construction raises an Input Error — an empty
name, or a non-empty attribute list whose length differs from the child's
attribute count — the schema is returned unchanged. -/
theorem assign_input_error_leaves_schema
    (child : RTree) (name : String) (newNames : List String) (sc : Schema)
    (h : name = "" ∨ (newNames ≠ [] ∧ newNames.length ≠ child.attrsOf.length)) :
    assignNode child name newNames sc = (.error .inputError, sc) := by
  rcases h with h | ⟨h1, h2⟩
  · simp [assignNode, h]
  · by_cases hn : name = ""
    · simp [assignNode, hn]
    · simp [assignNode, hn, h1, h2]

/-- Witness for C10: assignment with an empty name, and assignment of
two attribute names to a one-attribute child, both fail with an Input
Error and leave the schema untouched. -/
theorem assign_input_error_leaves_schema_witness :
    assignNode (.relationN "alpha" (relAttrs "alpha" ["a1"])) "" []
        [("alpha", ["a1"])]
      = (.error .inputError, [("alpha", ["a1"])])
    ∧ assignNode (.relationN "alpha" (relAttrs "alpha" ["a1"])) "b" ["x", "y"]
        [("alpha", ["a1"])]
      = (.error .inputError, [("alpha", ["a1"])]) :=
  ⟨assign_input_error_leaves_schema _ _ _ _ (Or.inl rfl),
   assign_input_error_leaves_schema _ _ _ _ (Or.inr ⟨by decide, by decide⟩)⟩

/-- C6: translating a SelectNode conjoins its condition with the child
query's existing WHERE block as `(<child where>) AND (<condition>)` when
that block is non-empty (preserving it), keeps the condition alone
otherwise, and sets the select block from the node's own attributes
exactly when the child query's select block is empty. -/
theorem select_merge_where (bag : Bool) (pid : RTree → Nat)
    (name : Option String) (attrs : List Attr) (cond : CondNode)
    (child : RTree) (cq : SQLQuery) (h : sqlTrans bag pid child = some cq) :
    sqlTrans bag pid (.selectN name attrs cond child)
      = some { cq with
          whereBlock :=
            if cq.whereBlock ≠ "" then
              "(" ++ cq.whereBlock ++ ") AND (" ++ cond.toSQL ++ ")"
            else cond.toSQL,
          selectBlock :=
            if cq.selectBlock = "" then attrsStr attrs else cq.selectBlock } := by
  simp [sqlTrans, h]

/-- Witness for C6: a select over a child whose query already carries the
WHERE block `c1` and a non-empty select block yields the conjunction
`(c1) AND (c2)` and keeps the child's select block. -/
theorem select_merge_where_witness :
    sqlTrans true pid0
        (.selectN (some "alpha") (relAttrs "alpha" ["a1"]) (.ident "c2")
          (.selectN (some "alpha") (relAttrs "alpha" ["a1"]) (.ident "c1")
            (.relationN "alpha" (relAttrs "alpha" ["a1"]))))
      = some { selectBlock := "alpha.a1", fromBlock := "alpha",
               whereBlock := "(c1) AND (c2)" } := by
  have h := select_merge_where true pid0 (some "alpha") (relAttrs "alpha" ["a1"])
    (.ident "c2")
    (.selectN (some "alpha") (relAttrs "alpha" ["a1"]) (.ident "c1")
      (.relationN "alpha" (relAttrs "alpha" ["a1"])))
    { selectBlock := "alpha.a1", fromBlock := "alpha", whereBlock := "c1" }
    (by decide)
  simpa using h

theorem pSubL_append_left (s t p : List Char) (h : pSubL t p = true) :
    pSubL (s ++ t) p = true := by
  induction s with
  | nil => simpa using h
  | cons c cs ih =>
    show (pStart (c :: (cs ++ t)) p || pSubL (cs ++ t) p) = true
    rw [ih]
    exact Bool.or_true _

theorem pSubL_all_marker (rest : List Char) :
    pSubL (' ' :: 'A' :: 'L' :: 'L' :: rest) ['A', 'L', 'L'] = true := by
  simp [pSubL, pStart]

theorem pSub_all_in_bag_block (a b c d e : String) :
    pSub ("(" ++ a ++ " " ++ b ++ " ALL " ++ c ++ ") AS " ++ d ++ e) "ALL" = true := by
  show pSubL _ _ = true
  simp only [String.data_append, List.append_assoc]
  apply pSubL_append_left
  apply pSubL_append_left
  apply pSubL_append_left
  apply pSubL_append_left
  simp only [List.cons_append, List.singleton_append]
  exact pSubL_all_marker _

/-- C2: translating a union, difference or intersect node under bag
semantics produces the from-block `(<left SQL> <OP> ALL <right SQL>) AS
<name>` (which contains the keyword `ALL`), while the set-semantics
translator produces `(<left SQL> <OP> <right SQL>) AS <name>`; in
particular the tree of `alpha \union alpha_copy;` translates to SQL
without `ALL` under set semantics and with `ALL` under bag semantics. -/
theorem set_op_bag_vs_set
    (pid : RTree → Nat) (op : SetOp) (attrs : List Attr) (l r : RTree)
    (lqb rqb lqs rqs : SQLQuery)
    (hlb : sqlTrans true pid l = some lqb) (hrb : sqlTrans true pid r = some rqb)
    (hls : sqlTrans false pid l = some lqs) (hrs : sqlTrans false pid r = some rqs) :
    sqlTrans true pid (.setopN op attrs l r)
      = some { selectBlock := attrsStr attrs,
               fromBlock := "(" ++ lqb.toSQL false ++ " " ++ op.toSQLOp ++ " ALL "
                 ++ rqb.toSQL false ++ ") AS " ++ tempName pid (.setopN op attrs l r) }
    ∧ sqlTrans false pid (.setopN op attrs l r)
      = some { selectBlock := attrsStr attrs,
               fromBlock := "(" ++ lqs.toSQL true ++ " " ++ op.toSQLOp ++ " "
                 ++ rqs.toSQL true ++ ") AS " ++ tempName pid (.setopN op attrs l r) }
    ∧ pSub ("(" ++ lqb.toSQL false ++ " " ++ op.toSQLOp ++ " ALL "
         ++ rqb.toSQL false ++ ") AS " ++ tempName pid (.setopN op attrs l r)) "ALL"
        = true
    ∧ (do
        let la ← relationNode "alpha" unionExampleSchema
        let rc ← relationNode "alpha_copy" unionExampleSchema
        unionNode la rc : Except RErrorKind RTree) = .ok unionExample
    ∧ (sqlBatch false pid0 [unionExample]).all (fun q => !(pSub q "ALL")) = true
    ∧ (sqlBatch true pid0 [unionExample]).all (fun q => pSub q "ALL") = true
    ∧ sqlBatch false pid0 [unionExample] ≠ [] := by
  refine ⟨?_, ?_, ?_, ?_, ?_, ?_, ?_⟩
  · simp only [sqlTrans, hlb, hrb]
    rfl
  · simp only [sqlTrans, hls, hrs]
    rfl
  · have h := pSub_all_in_bag_block (lqb.toSQL false) op.toSQLOp (rqb.toSQL false)
      (tempName pid (.setopN op attrs l r)) ""
    simpa using h
  · rfl
  · decide
  · decide
  · decide

/-- Witness for C2: the union of `alpha` and `alpha_copy` translated by
both translators, with the bag from-block carrying `UNION ALL` and the
set from-block a plain `UNION`. -/
theorem set_op_bag_vs_set_witness :
    sqlTrans true pid0 unionExample
      = some { selectBlock := "a1, a2, a3",
               fromBlock := "(SELECT alpha.a1, alpha.a2, alpha.a3 FROM alpha UNION ALL SELECT alpha_copy.a1, alpha_copy.a2, alpha_copy.a3 FROM alpha_copy) AS _0" }
    ∧ sqlTrans false pid0 unionExample
      = some { selectBlock := "a1, a2, a3",
               fromBlock := "(SELECT DISTINCT alpha.a1, alpha.a2, alpha.a3 FROM alpha UNION SELECT DISTINCT alpha_copy.a1, alpha_copy.a2, alpha_copy.a3 FROM alpha_copy) AS _0" } := by
  have h := set_op_bag_vs_set pid0 .unionOp (bareAttrs ["a1", "a2", "a3"])
    (.relationN "alpha" (relAttrs "alpha" ["a1", "a2", "a3"]))
    (.relationN "alpha_copy" (relAttrs "alpha_copy" ["a1", "a2", "a3"]))
    { selectBlock := "alpha.a1, alpha.a2, alpha.a3", fromBlock := "alpha" }
    { selectBlock := "alpha_copy.a1, alpha_copy.a2, alpha_copy.a3", fromBlock := "alpha_copy" }
    { selectBlock := "alpha.a1, alpha.a2, alpha.a3", fromBlock := "alpha" }
    { selectBlock := "alpha_copy.a1, alpha_copy.a2, alpha_copy.a3", fromBlock := "alpha_copy" }
    rfl rfl rfl rfl
  exact ⟨h.1, h.2.1⟩

/-- Counterexample for C3: against the schema `{alpha: [a1, a2, a3]}` the
tree of `\project_{a1} alpha;` translates under set semantics to
`SELECT DISTINCT alpha.a1 FROM alpha`, which differs from the claimed
`SELECT a1 FROM alpha` — the set-semantics query class always emits
`SELECT DISTINCT`. -/
theorem project_set_sql_counterexample :
    (do
      let t ← relationNode "alpha" [("alpha", ["a1", "a2", "a3"])]
      projectNode t [⟨none, "a1"⟩] : Except RErrorKind RTree).map
        (fun t => sqlBatch false pid0 [t])
      = .ok ["SELECT DISTINCT alpha.a1 FROM alpha"]
    ∧ ("SELECT DISTINCT alpha.a1 FROM alpha" : String) ≠ "SELECT a1 FROM alpha" :=
  ⟨rfl, by decide⟩

/-- C3 (amended): against the schema `{alpha: [a1, a2, a3]}`, translating
`\project_{a1} alpha;` to SQL under set semantics produces exactly
`SELECT DISTINCT alpha.a1 FROM alpha`. -/
theorem project_set_sql_distinct :
    (do
      let t ← relationNode "alpha" [("alpha", ["a1", "a2", "a3"])]
      projectNode t [⟨none, "a1"⟩] : Except RErrorKind RTree).map
        (fun t => sqlBatch false pid0 [t])
      = .ok ["SELECT DISTINCT alpha.a1 FROM alpha"] := rfl

/-- Underscore escaping leaves a character list without underscores
unchanged. -/
theorem foldr_escape_eq {l : List Char} (h : '_' ∉ l) :
    l.foldr (fun c acc => if c = '_' then '\\' :: '_' :: acc else c :: acc) [] = l := by
  induction l with
  | nil => rfl
  | cons c t ih =>
    have hc : ¬(c = '_') := fun hh => h (hh ▸ List.mem_cons_self c t)
    simp only [List.foldr_cons, hc, if_false,
      ih (fun hm => h (List.mem_cons_of_mem c hm))]

/-- Underscore escaping leaves a name without underscores unchanged. -/
theorem escapeU_eq_self {n : String} (h : '_' ∉ n.data) : escapeU n = n := by
  cases n with
  | mk l => exact congrArg String.mk (foldr_escape_eq h)

/-- C9: the qtree translation of a batch with one relation node whose
name contains no underscore is exactly `\Tree[.$<name>$ ]`; with the
schema `{alpha: [a1, a2]}`, the statement `alpha;` yields
`\Tree[.$alpha$ ]` (witness). -/
theorem qtree_relation_shape (n : String) (attrs : List Attr)
    (h : '_' ∉ n.data) :
    qtreeBatch [.relationN n attrs] = ["\\Tree[.$" ++ n ++ "$ ]"] := by
  simp only [qtreeBatch, qtreeTrans, List.map, escapeU_eq_self h]
  rw [← String.append_assoc, ← String.append_assoc]
  rfl

/-- Witness for C9: the relation node built for `alpha;` translates to
exactly `\Tree[.$alpha$ ]`. -/
theorem qtree_relation_shape_witness :
    qtreeBatch [.relationN "alpha" (relAttrs "alpha" ["a1", "a2"])]
      = ["\\Tree[.$alpha$ ]"] :=
  qtree_relation_shape "alpha" (relAttrs "alpha" ["a1", "a2"]) (by decide)

/-- Every well-formed relational-algebra expression translates to some
SQL query (no expression constructor yields `None`). -/
theorem sqlTrans_wf_some (bag : Bool) (pid : RTree → Nat) :
    ∀ t : RTree, wfExpr t = true → (sqlTrans bag pid t).isSome = true := by
  intro t
  induction t with
  | relationN n attrs => intro _; simp [sqlTrans]
  | definitionN n attrs => intro h; simp [wfExpr] at h
  | selectN name attrs cond child ih =>
    intro h
    simp only [wfExpr] at h
    obtain ⟨cq, hcq⟩ := Option.isSome_iff_exists.mp (ih h)
    simp [sqlTrans, hcq]
  | projectN name attrs child ih =>
    intro h
    simp only [wfExpr] at h
    obtain ⟨cq, hcq⟩ := Option.isSome_iff_exists.mp (ih h)
    simp [sqlTrans, hcq]
  | renameN name attrs child ih =>
    intro h
    simp only [wfExpr] at h
    obtain ⟨cq, hcq⟩ := Option.isSome_iff_exists.mp (ih h)
    simp [sqlTrans, hcq]
  | assignN name attrs child ih =>
    intro h
    simp only [wfExpr] at h
    obtain ⟨cq, hcq⟩ := Option.isSome_iff_exists.mp (ih h)
    simp [sqlTrans, hcq]
  | joinN op attrs cond l r ihl ihr =>
    intro h
    simp only [wfExpr, Bool.and_eq_true] at h
    obtain ⟨lq, hl⟩ := Option.isSome_iff_exists.mp (ihl h.1)
    obtain ⟨rq, hr⟩ := Option.isSome_iff_exists.mp (ihr h.2)
    simp [sqlTrans, hl, hr]
  | setopN op attrs l r ihl ihr =>
    intro h
    simp only [wfExpr, Bool.and_eq_true] at h
    obtain ⟨lq, hl⟩ := Option.isSome_iff_exists.mp (ihl h.1)
    obtain ⟨rq, hr⟩ := Option.isSome_iff_exists.mp (ihr h.2)
    simp [sqlTrans, hl, hr]
  | pkN rel ats => intro h; simp [wfExpr] at h
  | mvdN rel ats child ih => intro h; simp [wfExpr] at h
  | fdN rel ats child ih => intro h; simp [wfExpr] at h
  | incEqN rels ats lc rc ihl ihr => intro h; simp [wfExpr] at h
  | incSubN rels ats lc rc ihl ihr => intro h; simp [wfExpr] at h

/-- For well-formed statements, the SQL translation is present exactly
when the statement is neither a skipped dependency kind nor a
definition. -/
theorem isSome_sqlTrans_eq (bag : Bool) (pid : RTree → Nat) (t : RTree)
    (h : wfStmt t = true) :
    (sqlTrans bag pid t).isSome = !(skippedDep t || isDefN t) := by
  cases t with
  | relationN n attrs => simp [sqlTrans, skippedDep, isDefN]
  | definitionN n attrs => simp [sqlTrans, skippedDep, isDefN]
  | selectN name attrs cond child =>
    simp only [wfStmt, skippedDep, isDefN, Bool.or_false] at h
    simp [skippedDep, isDefN, sqlTrans_wf_some bag pid _ h]
  | projectN name attrs child =>
    simp only [wfStmt, skippedDep, isDefN, Bool.or_false] at h
    simp [skippedDep, isDefN, sqlTrans_wf_some bag pid _ h]
  | renameN name attrs child =>
    simp only [wfStmt, skippedDep, isDefN, Bool.or_false] at h
    simp [skippedDep, isDefN, sqlTrans_wf_some bag pid _ h]
  | assignN name attrs child =>
    simp only [wfStmt, skippedDep, isDefN, Bool.or_false] at h
    simp [skippedDep, isDefN, sqlTrans_wf_some bag pid _ h]
  | joinN op attrs cond l r =>
    simp only [wfStmt, skippedDep, isDefN, Bool.or_false] at h
    simp [skippedDep, isDefN, sqlTrans_wf_some bag pid _ h]
  | setopN op attrs l r =>
    simp only [wfStmt, skippedDep, isDefN, Bool.or_false] at h
    simp [skippedDep, isDefN, sqlTrans_wf_some bag pid _ h]
  | pkN rel ats => simp [sqlTrans, skippedDep, isDefN]
  | mvdN rel ats child => simp [sqlTrans, skippedDep, isDefN]
  | fdN rel ats child => simp [sqlTrans, skippedDep, isDefN]
  | incEqN rels ats lc rc => simp [sqlTrans, skippedDep, isDefN]
  | incSubN rels ats lc rc => simp [sqlTrans, skippedDep, isDefN]

/-- The batch SQL translation emits exactly one statement per input
statement that is neither a skipped dependency kind nor a definition. -/
theorem sqlBatch_length (bag : Bool) (pid : RTree → Nat) :
    ∀ roots : List RTree, (∀ t ∈ roots, wfStmt t = true) →
      (sqlBatch bag pid roots).length
        = (roots.filter (fun t => !(skippedDep t || isDefN t))).length := by
  intro roots
  induction roots with
  | nil => intro _; rfl
  | cons t ts ih =>
    intro hwf
    have ht := isSome_sqlTrans_eq bag pid t (hwf t (List.mem_cons_self t ts))
    have htail := ih (fun x hx => hwf x (List.mem_cons_of_mem t hx))
    cases hq : sqlTrans bag pid t with
    | some q =>
      rw [hq] at ht
      simp only [Option.isSome_some] at ht
      have hcond : skippedDep t = false ∧ isDefN t = false := by
        revert ht
        cases skippedDep t <;> cases isDefN t <;> simp
      simp [sqlBatch, List.filterMap_cons, hq, List.filter_cons, hcond] at htail ⊢
      omega
    | none =>
      rw [hq] at ht
      simp only [Option.isSome_none] at ht
      have hcond : ¬(skippedDep t = false ∧ isDefN t = false) := by
        revert ht
        cases skippedDep t <;> cases isDefN t <;> simp
      simp [sqlBatch, List.filterMap_cons, hq, List.filter_cons, hcond] at htail ⊢
      exact htail

/-- C7 (amended): multivalued-dependency, functional-dependency and both
inclusion-dependency nodes translate to nothing; primary-key nodes still
produce a statement; and the batch-level translation contains one SQL
statement per input statement except for those dependency statements and
definition statements, which are omitted. -/
theorem sql_translate_omits_deps
    (bag : Bool) (pid : RTree → Nat) (roots : List RTree)
    (rel : String) (ats rels : List String) (child lc rc : RTree)
    (hwf : ∀ t ∈ roots, wfStmt t = true) :
    sqlTrans bag pid (.mvdN rel ats child) = none
    ∧ sqlTrans bag pid (.fdN rel ats child) = none
    ∧ sqlTrans bag pid (.incEqN rels ats lc rc) = none
    ∧ sqlTrans bag pid (.incSubN rels ats lc rc) = none
    ∧ (sqlTrans bag pid (.pkN rel ats)).isSome = true
    ∧ (sqlBatch bag pid roots).length
        = (roots.filter (fun t => !(skippedDep t || isDefN t))).length :=
  ⟨rfl, rfl, rfl, rfl, rfl, sqlBatch_length bag pid roots hwf⟩

/-- Witness for C7: the four dependency kinds translate to `none`, a
primary key translates to a statement, and a batch of a relation, a
definition, a primary key and a multivalued dependency yields exactly the
two statements of its non-omitted members. -/
theorem sql_translate_omits_deps_witness :
    sqlTrans false pid0 (.mvdN "r" ["a", "b"] (.relationN "r" (relAttrs "r" ["a", "b"]))) = none
    ∧ sqlTrans false pid0 (.fdN "r" ["a", "b"] (.relationN "r" (relAttrs "r" ["a", "b"]))) = none
    ∧ sqlTrans false pid0 (.incEqN ["r", "s"] ["a", "b"]
        (.relationN "r" (relAttrs "r" ["a", "b"])) (.relationN "r" (relAttrs "r" ["a", "b"]))) = none
    ∧ sqlTrans false pid0 (.incSubN ["r", "s"] ["a", "b"]
        (.relationN "r" (relAttrs "r" ["a", "b"])) (.relationN "r" (relAttrs "r" ["a", "b"]))) = none
    ∧ (sqlTrans false pid0 (.pkN "r" ["a", "b"])).isSome = true
    ∧ (sqlBatch false pid0
        [.relationN "alpha" (relAttrs "alpha" ["a1"]),
         .definitionN "r" (relAttrs "r" ["a"]),
         .pkN "r" ["a"],
         .mvdN "r" ["a", "b"] (.relationN "r" (relAttrs "r" ["a", "b"]))]).length
        = ([RTree.relationN "alpha" (relAttrs "alpha" ["a1"]),
            .definitionN "r" (relAttrs "r" ["a"]),
            .pkN "r" ["a"],
            .mvdN "r" ["a", "b"] (.relationN "r" (relAttrs "r" ["a", "b"]))].filter
            (fun t => !(skippedDep t || isDefN t))).length :=
  sql_translate_omits_deps false pid0
    [.relationN "alpha" (relAttrs "alpha" ["a1"]),
     .definitionN "r" (relAttrs "r" ["a"]),
     .pkN "r" ["a"],
     .mvdN "r" ["a", "b"] (.relationN "r" (relAttrs "r" ["a", "b"]))]
    "r" ["a", "b"] ["r", "s"]
    (.relationN "r" (relAttrs "r" ["a", "b"]))
    (.relationN "r" (relAttrs "r" ["a", "b"]))
    (.relationN "r" (relAttrs "r" ["a", "b"]))
    (by decide)

/-- Counterexample for C7 as stated: a batch holding one definition
statement — which is not a multivalued, functional or inclusion
dependency — translates to the empty list, not to one SQL statement per
input statement. -/
theorem sql_translate_definition_dropped :
    sqlBatch false pid0 [.definitionN "r" (relAttrs "r" ["a"])] = []
    ∧ skippedDep (.definitionN "r" (relAttrs "r" ["a"])) = false :=
  ⟨rfl, rfl⟩

/-- C8: the dependency grammar accepts a `\select`-filtered target for
`fd` statements but rejects it for `mvd` statements (whose rule only
admits a bare relation name), accepting the bare forms of both — the
repository's own tests expect `mvd_{a, b} \select_{a = 1} R;`
to parse. -/
theorem dependency_grammar_select_target :
    parseDeps "fd_\x7ba, b\x7d \\select_\x7ba = 1\x7d R;" = some [.fdSel "a" "b" "r"]
    ∧ parseDeps "mvd_\x7ba, b\x7d \\select_\x7ba = 1\x7d R;" = none
    ∧ parseDeps "mvd_\x7ba, b\x7d R;" = some [.mvd "a" "b" "r"]
    ∧ parseDeps "fd_\x7ba, b\x7d R;" = some [.fdBare "a" "b" "r"] :=
  ⟨rfl, rfl, rfl, rfl⟩
